import Mathlib

/-!
# Verification of the VibeWorker task-orchestration engine

Shallow embedding, in Lean 4, of the parts of the repository that the spec's
claims are about, together with theorems settling each claim.

Embedded modules:
* `backend/plan_approval.py` — the Approval Gate registry
  (`register_plan_approval`, `resolve_plan_approval`, `get_plan_approval_result`).
* `backend/graph/agent.py` — the Phase-2 plan-execution loop
  (`_stream_plan_execution`) and the replanner evaluation (`_evaluate_replan`).
* `backend/engine/graph_builder.py` — `build_graph`, `get_or_build_graph`,
  `_config_fingerprint` (a SHA-256 over the key-sorted JSON dump of the
  configuration) and `cleanup_old_checkpoints`.

Conventions: Python dicts keyed by strings are embedded as functions
`String → Option β` or as association lists, matching each use site; Python
object identity (distinct `asyncio.Event` / compiled-graph instances) is
embedded by tagging each fresh allocation with a serial number drawn from a
counter threaded through the state.
-/

namespace VibeWorker

/-! ## Approval Gate — `backend/plan_approval.py`

The module holds two global dicts,
`_plan_approval_events : dict[str, asyncio.Event]` and
`_plan_approval_results : dict[str, bool]`.  An `asyncio.Event` is embedded as
a serial number (its identity) plus an entry in `flags` (its internal
"set" flag: `evt.set()` turns it true, releasing every waiter).
-/

structure ApprovalState where
  events : String → Option Nat
  results : String → Option Bool
  flags : Nat → Bool
  nextEvt : Nat

/-- The state at module import: both dicts empty, no Event allocated. -/
def ApprovalState.initial : ApprovalState :=
  { events := fun _ => none
    results := fun _ => none
    flags := fun _ => false
    nextEvt := 0 }

/-- Pointwise update of a dict embedded as a function. -/
def dictSet {α : Type} (m : String → Option α) (k : String) (v : Option α) :
    String → Option α :=
  fun q => if q = k then v else m q

/-- `register_plan_approval(plan_id)`: allocates a fresh `asyncio.Event`
(initially unset) and stores it under `plan_id`, unconditionally overwriting
any entry already present; returns the new event.  There is no failure path
in the source. -/
def register_plan_approval (plan_id : String) (st : ApprovalState) :
    Nat × ApprovalState :=
  let evt := st.nextEvt
  (evt,
    { events := dictSet st.events plan_id (some evt)
      results := st.results
      flags := fun e => if e = evt then false else st.flags e
      nextEvt := st.nextEvt + 1 })

/-- `resolve_plan_approval(plan_id, approved)`: pops the pending event; if
none exists returns `False`; otherwise stores the result, sets the event
(releasing the waiter) and returns `True`. -/
def resolve_plan_approval (plan_id : String) (approved : Bool)
    (st : ApprovalState) : Bool × ApprovalState :=
  match st.events plan_id with
  | none => (false, st)
  | some evt =>
    (true,
      { events := dictSet st.events plan_id none
        results := dictSet st.results plan_id (some approved)
        flags := fun e => if e = evt then true else st.flags e
        nextEvt := st.nextEvt })

/-- `get_plan_approval_result(plan_id)`: `dict.pop(plan_id, True)` — returns
the stored result and removes it, defaulting to `True` (fail-open) when no
result is stored. -/
def get_plan_approval_result (plan_id : String) (st : ApprovalState) :
    Bool × ApprovalState :=
  match st.results plan_id with
  | none => (true, st)
  | some b =>
    (b, { st with results := dictSet st.results plan_id none })

/-! ## Replanner and Phase-2 plan-execution loop — `backend/graph/agent.py`

A plan step is the dict `{"id": int, "title": str, "status": str}` built by
`plan_create`; the Phase-2 loop reads `step["id"]` and `step["title"]` and
never mutates the local step dicts (status changes are communicated through
events only).
-/

structure Step where
  id : Nat
  title : String
  status : String
deriving DecidableEq, Repr

/-- The structured output `ReplanDecision(BaseModel)` of the replanner LLM. -/
structure ReplanDecision where
  action : String
  response : String
  revisedSteps : List String
  reason : String
deriving DecidableEq, Repr

/-- Events sent to the SSE stream that the claims talk about:
`send_plan_updated_event(plan_id, step_id, status)`,
`send_plan_revised_event(plan_id, new_steps, step_index, reason)` (both live
in `tools/plan_tool.py`, absent from the sources; modelled from the spec:
`plan_updated` carries step id + new status, `plan_revised` carries the new
step list + reason), plus the `token` and `done` dict events yielded
directly by `_stream_plan_execution`. -/
inductive Event where
  | planUpdated (planId : String) (stepId : Nat) (status : String)
  | planRevised (planId : String) (newSteps : List Step) (atIndex : Nat) (reason : String)
  | token (content : String)
  | done
deriving DecidableEq, Repr

/-- `_evaluate_replan(plan_title, steps, past_steps, current_index, ...)`.

The model invocation (`create_llm`, `with_structured_output`, `ainvoke`,
everything inside the `try`) is embedded as an oracle argument
`modelCall : Except String ReplanDecision`: `.ok d` is a successful
structured decision, `.error` any raised exception (timeout, malformed
output).  The returned `Bool` records whether the model was invoked at all.
Guards, in source order: `if not settings.plan_revision_enabled: return
None`; `remaining_steps = steps[current_index:]`; `if not remaining_steps:
return None`; then the `try/except` that converts any failure to `None`. -/
def evaluate_replan (revisionEnabled : Bool) (steps : List Step)
    (currentIndex : Nat) (modelCall : Except String ReplanDecision) :
    Option ReplanDecision × Bool :=
  if !revisionEnabled then (none, false)
  else if steps.drop currentIndex = [] then (none, false)
  else
    match modelCall with
    | .ok d => (some d, true)
    | .error _ => (none, true)

/-- Python `str.strip()`: drop leading and trailing whitespace (structural,
character-list based). -/
def pyStrip (s : String) : String :=
  ⟨(((s.data.dropWhile Char.isWhitespace).reverse.dropWhile
      Char.isWhitespace).reverse)⟩

/-- Python slicing `s[:n]` (structural, character-list based). -/
def pySlice (s : String) (n : Nat) : String := ⟨s.data.take n⟩

/-- The list comprehension of the `revise` branch:
`[{"id": step_index + i + 1, "title": s.strip(), "status": "pending"} for
i, s in enumerate(decision.revised_steps)]`. -/
def reviseNewSteps (stepIndex : Nat) (revised : List String) : List Step :=
  revised.enum.map fun si =>
    { id := stepIndex + si.1 + 1, title := pyStrip si.2, status := "pending" }

/-- Everything `_stream_plan_execution` needs besides the evolving loop
state: the plan identity, the configured toggles/bounds, and two oracles
standing for the non-deterministic outside world, both indexed by the value
of `step_index` at the top of the iteration (which increases by exactly one
per iteration, so it identifies the iteration): `stepResponse i` is the text
accumulated from the step-`i` sub-agent stream, `modelOutcome j` the outcome
of the replanner LLM call made when `step_index = j` after the increment. -/
structure LoopEnv where
  planId : String
  planTitle : String
  planMaxSteps : Nat
  revisionEnabled : Bool
  stepResponse : Nat → String
  modelOutcome : Nat → Except String ReplanDecision

/-- Result of one run of the Phase-2 `while` loop: the events emitted, the
final value of the local `steps` list, and the number of loop iterations
executed. -/
structure LoopResult where
  events : List Event
  steps : List Step
  iterations : Nat
deriving Repr

/-- One iteration of the Phase-2 `while` body, from `step = steps[step_index]`
to the end of the replanner block.  Returns the events this iteration emits
and either `some (steps', past')` to continue at `step_index + 1`, or `none`
when the iteration hit `break` (the replanner's `finish` branch).

Source order: emit `plan_updated(step_id, "running")`; run the sub-agent
(its token/llm/tool events are not modelled — the claims do not mention
them — only the accumulated `step_response` text is kept); emit
`plan_updated(step_id, "completed")`; append `(step_title,
step_response[:1000])` to `past_steps`; `step_index += 1`; if steps remain,
call `_evaluate_replan` and dispatch on the decision. -/
def loopIteration (env : LoopEnv) (steps : List Step) (stepIndex : Nat)
    (past : List (String × String)) :
    List Event × Option (List Step × List (String × String)) :=
  let step := steps.getD stepIndex { id := 0, title := "", status := "" }
  let runEvt := Event.planUpdated env.planId step.id "running"
  let doneEvt := Event.planUpdated env.planId step.id "completed"
  let response := env.stepResponse stepIndex
  let past2 := past ++ [(step.title, pySlice response 1000)]
  let nextIndex := stepIndex + 1
  let remaining := steps.length - nextIndex
  if remaining > 0 then
    match (evaluate_replan env.revisionEnabled steps nextIndex
        (env.modelOutcome nextIndex)).1 with
    | some d =>
      if d.action = "finish" then
        let skipEvts := (steps.drop nextIndex).map fun s =>
          Event.planUpdated env.planId s.id "completed"
        let finishEvts :=
          if d.response ≠ "" then [Event.token ("\n\n" ++ d.response)] else []
        ([runEvt, doneEvt] ++ skipEvts ++ finishEvts, none)
      else if d.action = "revise" ∧ d.revisedSteps ≠ [] then
        let newSteps := reviseNewSteps nextIndex d.revisedSteps
        ([runEvt, doneEvt,
          Event.planRevised env.planId newSteps nextIndex d.reason],
          some (steps.take nextIndex ++ newSteps, past2))
      else
        ([runEvt, doneEvt], some (steps, past2))
    | none => ([runEvt, doneEvt], some (steps, past2))
  else
    ([runEvt, doneEvt], some (steps, past2))

/-- The `while step_index < len(steps) and step_index < settings.plan_max_steps`
loop.  Termination is exactly the source's argument: every iteration
increments `step_index` by one and the guard keeps it below
`plan_max_steps`, so `plan_max_steps - step_index` strictly decreases. -/
def planLoop (env : LoopEnv) (steps : List Step) (stepIndex : Nat)
    (past : List (String × String)) : LoopResult :=
  if _h : stepIndex < steps.length ∧ stepIndex < env.planMaxSteps then
    match loopIteration env steps stepIndex past with
    | (evts, none) =>
      { events := evts, steps := steps, iterations := stepIndex + 1 }
    | (evts, some (steps2, past2)) =>
      let rest := planLoop env steps2 (stepIndex + 1) past2
      { events := evts ++ rest.events, steps := rest.steps,
        iterations := rest.iterations }
  else
    { events := [], steps := steps, iterations := stepIndex }
termination_by env.planMaxSteps - stepIndex
decreasing_by omega

/-- Fuel-indexed twin of `planLoop`, structurally recursive so that concrete
runs reduce inside the kernel; `planLoop` agrees with it whenever
`fuel ≥ plan_max_steps - step_index` (proved below). -/
def planLoopFuel : Nat → LoopEnv → List Step → Nat → List (String × String) →
    LoopResult
  | 0, _, steps, stepIndex, _ =>
    { events := [], steps := steps, iterations := stepIndex }
  | fuel + 1, env, steps, stepIndex, past =>
    if stepIndex < steps.length ∧ stepIndex < env.planMaxSteps then
      match loopIteration env steps stepIndex past with
      | (evts, none) =>
        { events := evts, steps := steps, iterations := stepIndex + 1 }
      | (evts, some (steps2, past2)) =>
        let rest := planLoopFuel fuel env steps2 (stepIndex + 1) past2
        { events := evts ++ rest.events, steps := rest.steps,
          iterations := rest.iterations }
    else { events := [], steps := steps, iterations := stepIndex }

/-- `_stream_plan_execution(plan_data, ...)`: runs the step loop from index 0
with empty `past_steps`, then yields the terminal `{"type": "done"}`. -/
def stream_plan_execution (env : LoopEnv) (steps : List Step) : LoopResult :=
  let r := planLoop env steps 0 []
  { r with events := r.events ++ [Event.done] }

/-! ## Graph Assembler — `build_graph` in `backend/engine/graph_builder.py`

The routing graph is over the named control nodes plus the two LangGraph
sentinels (`set_entry_point` adds the `ENTRY → agent` edge; `END` is the
terminal sentinel).  `add_conditional_edges(src, f, mapping)` contributes
one directed edge per distinct target in `mapping`'s values. -/

inductive GNode where
  | ENTRY
  | agent
  | plan_gate
  | approval
  | executor_pre
  | executor
  | replanner
  | summarizer
  | END
deriving DecidableEq, Repr

structure RoutingGraph where
  nodes : List GNode
  edges : List (GNode × GNode)
deriving DecidableEq, Repr

/-- `build_graph(graph_config)` restricted to its four toggle inputs
(`nodes_cfg.get(name, {}).get("enabled", default)`); node and edge lists are
written in the order the source adds them.  The source has no validation and
no error path: every toggle combination compiles a graph. -/
def build_graph (planner approval replanner summarizer : Bool) : RoutingGraph :=
  let nodes := [GNode.agent] ++
    (if planner then
      [GNode.plan_gate] ++
      (if approval then [GNode.approval] else []) ++
      [GNode.executor_pre, GNode.executor] ++
      (if replanner then [GNode.replanner] else []) ++
      (if summarizer then [GNode.summarizer] else [])
    else [])
  let edges := [(GNode.ENTRY, GNode.agent)] ++
    (if planner then
      [(GNode.agent, GNode.plan_gate), (GNode.agent, GNode.END),
       (GNode.executor_pre, GNode.executor)] ++
      (if approval then
        [(GNode.plan_gate, GNode.approval), (GNode.plan_gate, GNode.executor_pre),
         (GNode.approval, GNode.executor_pre), (GNode.approval, GNode.agent)]
      else [(GNode.plan_gate, GNode.executor_pre)]) ++
      (if replanner then
        [(GNode.executor, GNode.replanner)] ++
        (if summarizer then
          [(GNode.replanner, GNode.executor_pre), (GNode.replanner, GNode.summarizer),
           (GNode.summarizer, GNode.agent)]
        else
          [(GNode.replanner, GNode.executor_pre), (GNode.replanner, GNode.END)])
      else
        (if summarizer then
          [(GNode.executor, GNode.executor_pre), (GNode.executor, GNode.summarizer),
           (GNode.summarizer, GNode.agent)]
        else
          [(GNode.executor, GNode.executor_pre), (GNode.executor, GNode.END)]))
    else [(GNode.agent, GNode.END)])
  { nodes := nodes, edges := edges }

/-- Nodes reachable from `srcs` in at most `fuel` edge steps. -/
def reachSet (edges : List (GNode × GNode)) : Nat → List GNode → List GNode
  | 0, acc => acc
  | fuel + 1, acc =>
    let next := acc ++ (edges.filter (fun e => e.1 ∈ acc)).map Prod.snd
    reachSet edges fuel next.dedup

/-- `a` reaches `b` through `edges` (reflexively). -/
def reaches (edges : List (GNode × GNode)) (a b : GNode) : Bool :=
  b ∈ reachSet edges 9 [a]

/-- The graph has a directed cycle iff some edge `(a, b)` closes a path
from `b` back to `a` (self-loops included via reflexive reach). -/
def hasCycle (edges : List (GNode × GNode)) : Bool :=
  edges.any fun e => reaches edges e.2 e.1

/-- The two backedges the spec designates as the only intended loops. -/
def designedBackedges : List (GNode × GNode) :=
  [(GNode.summarizer, GNode.agent), (GNode.approval, GNode.agent)]

/-- The loop-closing backedges actually present in the wiring: besides the
two designed ones, `replanner → executor_pre` (replanner enabled) and
`executor → executor_pre` (replanner disabled) close the per-step executor
loop. -/
def actualBackedges : List (GNode × GNode) :=
  designedBackedges ++
    [(GNode.replanner, GNode.executor_pre), (GNode.executor, GNode.executor_pre)]

/-! ## Checkpoint Store pruning — `cleanup_old_checkpoints`

`MemorySaver.storage` is keyed by tuples `(thread_id, checkpoint_ns,
checkpoint_id)`; the function groups the keys by `key[0]`, and for every
thread holding more than `_CHECKPOINT_MAX_PER_THREAD` keys sorts them by
`key[2]` descending (Python `sorted(..., reverse=True)` — a stable sort,
embedded as `insertionSort` with the reversed relation) and deletes all but
the first `_CHECKPOINT_MAX_PER_THREAD`.  The rate-limit prologue
(`_CHECKPOINT_CLEANUP_INTERVAL`) only decides whether this body runs at all
and is not part of the retention logic.  The retention ceiling is the
module constant `20`, taken here as a parameter so that the misconfigured
value `0` can be examined. -/

structure CkptKey where
  thread : String
  ns : String
  cid : String
deriving DecidableEq, Repr

/-- Descending order on `checkpoint_id` — `sorted(keys, key=lambda k: k[2],
reverse=True)`. -/
def cidDesc (a b : CkptKey) : Prop := b.cid ≤ a.cid

instance : DecidableRel cidDesc := fun a b =>
  inferInstanceAs (Decidable (b.cid ≤ a.cid))

instance : IsTotal CkptKey cidDesc :=
  ⟨fun a b => (le_total b.cid a.cid).imp id id⟩

instance : IsTrans CkptKey cidDesc :=
  ⟨fun _ _ _ h1 h2 => le_trans h2 h1⟩

/-- Keys deleted for one thread: none if the thread holds at most
`maxPerThread` keys, otherwise everything after the first `maxPerThread` of
the descending `cid` sort. -/
def removalForThread (maxPerThread : Nat) (storage : List CkptKey)
    (t : String) : List CkptKey :=
  let keys := storage.filter fun k => k.thread = t
  if keys.length ≤ maxPerThread then []
  else (List.insertionSort cidDesc keys).drop maxPerThread

/-- The pruning body of `cleanup_old_checkpoints`: the storage after all
per-thread deletions. -/
def cleanup_old_checkpoints (maxPerThread : Nat) (storage : List CkptKey) :
    List CkptKey :=
  let threads := (storage.map CkptKey.thread).dedup
  let toRemove := threads.flatMap (removalForThread maxPerThread storage)
  storage.filter fun k => k ∉ toRemove

/-! ## Configuration fingerprint — `_config_fingerprint`

`json.dumps(graph_config, sort_keys=True)` serialized with the default
separators `", "` and `": "`, UTF-8 encoded, SHA-256 hashed, first 16 hex
digits.  The configuration values occurring in `graph_config.yaml` are
objects, strings, integers and booleans with plain-ASCII keys, so the
serializer below covers exactly that fragment (no escaping is needed for
it).  SHA-256 is implemented in full. -/

inductive Json where
  | bool (b : Bool)
  | num (n : Nat)
  | str (s : String)
  | obj (fields : List (String × Json))

/-- Python string comparison (`a <= b` on `str`): lexicographic over code
points, a proper prefix preceding its extensions.  Structural, so concrete
sorts reduce inside the kernel. -/
def charListLe : List Char → List Char → Bool
  | [], _ => true
  | _ :: _, [] => false
  | a :: as, b :: bs =>
    if a < b then true
    else if b < a then false
    else charListLe as bs

def pyStrLe (a b : String) : Bool := charListLe a.data b.data

/-- Key order used by `sort_keys=True` (Python compares `str` keys). -/
def keyLe (a b : String × String) : Prop := pyStrLe a.1 b.1 = true

instance : DecidableRel keyLe := fun a b =>
  inferInstanceAs (Decidable (pyStrLe a.1 b.1 = true))

theorem charListLe_total : ∀ as bs, charListLe as bs = true ∨ charListLe bs as = true := by
  intro as
  induction as with
  | nil => intro bs; left; rfl
  | cons a as ih =>
    intro bs
    cases bs with
    | nil => right; rfl
    | cons b bs =>
      by_cases hab : a < b
      · left; simp [charListLe, hab]
      · by_cases hba : b < a
        · right; simp [charListLe, hba]
        · rcases ih bs with h | h
          · left; simp [charListLe, hab, hba, h]
          · right; simp [charListLe, hab, hba, h]

theorem charListLe_trans :
    ∀ as bs cs, charListLe as bs = true → charListLe bs cs = true →
      charListLe as cs = true := by
  intro as
  induction as with
  | nil => intro bs cs _ _; rfl
  | cons a as ih =>
    intro bs cs h1 h2
    cases bs with
    | nil => simp [charListLe] at h1
    | cons b bs =>
      cases cs with
      | nil => simp [charListLe] at h2
      | cons c cs =>
        simp only [charListLe] at h1 h2 ⊢
        by_cases hab : a < b
        · have hbc : b ≤ c := by
            by_contra hc
            push_neg at hc
            simp [not_lt.mpr (le_of_lt hc), hc] at h2
          have hac : a < c := lt_of_lt_of_le hab hbc
          simp [hac]
        · by_cases hba : b < a
          · simp [hab, hba] at h1
          · have heq : a = b := le_antisymm (not_lt.mp hba) (not_lt.mp hab)
            subst heq
            by_cases hac : a < c
            · simp [hac]
            · by_cases hca : c < a
              · simp [hac, hca] at h2
              · simp [hac, hca] at h1 h2 ⊢
                exact ih bs cs h1 h2

theorem charListLe_antisymm :
    ∀ as bs, charListLe as bs = true → charListLe bs as = true → as = bs := by
  intro as
  induction as with
  | nil =>
    intro bs _ h2
    cases bs with
    | nil => rfl
    | cons b bs => simp [charListLe] at h2
  | cons a as ih =>
    intro bs h1 h2
    cases bs with
    | nil => simp [charListLe] at h1
    | cons b bs =>
      simp only [charListLe] at h1 h2
      by_cases hab : a < b
      · simp [hab, not_lt.mpr (le_of_lt hab), lt_asymm hab] at h2
      · by_cases hba : b < a
        · simp [hab, hba] at h1
        · have heq : a = b := le_antisymm (not_lt.mp hba) (not_lt.mp hab)
          subst heq
          simp [lt_irrefl] at h1 h2
          rw [ih bs h1 h2]

instance : IsTotal (String × String) keyLe :=
  ⟨fun a b => (charListLe_total a.1.data b.1.data).imp id id⟩

instance : IsTrans (String × String) keyLe :=
  ⟨fun _ _ _ h1 h2 => charListLe_trans _ _ _ h1 h2⟩

/-- Strict key order; sorted-with-distinct-keys lists are sorted for it. -/
def keyLt (a b : String × String) : Prop := keyLe a b ∧ a.1 ≠ b.1

instance : IsAntisymm (String × String) keyLt :=
  ⟨fun a b h1 h2 => by
    have hd : a.1.data = b.1.data := charListLe_antisymm _ _ h1.1 h2.1
    exact absurd (congrArg String.mk hd) h1.2⟩

/-- Stable sort of object fields by key — `sort_keys=True`. -/
def sortFields (fields : List (String × String)) : List (String × String) :=
  List.insertionSort keyLe fields

mutual

/-- `json.dumps(·, sort_keys=True)` on the fragment above. -/
def dumps : Json → String
  | .bool true => "true"
  | .bool false => "false"
  | .num n => toString n
  | .str s => "\"" ++ s ++ "\""
  | .obj fields =>
    "\x7b" ++
      String.intercalate ", "
        ((sortFields (dumpFields fields)).map fun kv =>
          "\"" ++ kv.1 ++ "\": " ++ kv.2) ++ "\x7d"

/-- Serialize each field's value, keeping the key for sorting. -/
def dumpFields : List (String × Json) → List (String × String)
  | [] => []
  | (k, v) :: rest => (k, dumps v) :: dumpFields rest

end

/-! SHA-256 (FIPS 180-4) over `Nat`, word width 32 made explicit by
`% 2 ^ 32`. -/

def M32 : Nat := 2 ^ 32

def rotr (n x : Nat) : Nat :=
  ((x >>> n) ||| (x <<< (32 - n))) % M32

def shaCh (x y z : Nat) : Nat := (x &&& y) ^^^ ((x ^^^ 0xffffffff) &&& z)

def shaMaj (x y z : Nat) : Nat := (x &&& y) ^^^ (x &&& z) ^^^ (y &&& z)

def bigSigma0 (x : Nat) : Nat := rotr 2 x ^^^ rotr 13 x ^^^ rotr 22 x

def bigSigma1 (x : Nat) : Nat := rotr 6 x ^^^ rotr 11 x ^^^ rotr 25 x

def smallSigma0 (x : Nat) : Nat := rotr 7 x ^^^ rotr 18 x ^^^ (x >>> 3)

def smallSigma1 (x : Nat) : Nat := rotr 17 x ^^^ rotr 19 x ^^^ (x >>> 10)

def shaK : List Nat :=
  [1116352408, 1899447441, 3049323471, 3921009573, 961987163,
   1508970993, 2453635748, 2870763221, 3624381080, 310598401,
   607225278, 1426881987, 1925078388, 2162078206, 2614888103,
   3248222580, 3835390401, 4022224774, 264347078, 604807628,
   770255983, 1249150122, 1555081692, 1996064986, 2554220882,
   2821834349, 2952996808, 3210313671, 3336571891, 3584528711,
   113926993, 338241895, 666307205, 773529912, 1294757372,
   1396182291, 1695183700, 1986661051, 2177026350, 2456956037,
   2730485921, 2820302411, 3259730800, 3345764771, 3516065817,
   3600352804, 4094571909, 275423344, 430227734, 506948616,
   659060556, 883997877, 958139571, 1322822218, 1537002063,
   1747873779, 1955562222, 2024104815, 2227730452, 2361852424,
   2428436474, 2756734187, 3204031479, 3329325298]

def shaH0 : List Nat :=
  [1779033703, 3144134277, 1013904242, 2773480762, 1359893119,
   2600822924, 528734635, 1541459225]

/-- Message-schedule extension of a 16-word block to 64 words. -/
def shaSchedule (w : Array Nat) : Array Nat :=
  (List.range 48).foldl
    (fun w i =>
      let t := i + 16
      let v := (smallSigma1 w[t - 2]! + w[t - 7]! + smallSigma0 w[t - 15]! + w[t - 16]!) % M32
      w.push v)
    w

def shaRound (st : Nat × Nat × Nat × Nat × Nat × Nat × Nat × Nat) (kw : Nat × Nat) :
    Nat × Nat × Nat × Nat × Nat × Nat × Nat × Nat :=
  let (a, b, c, d, e, f, g, h) := st
  let (k, w) := kw
  let t1 := (h + bigSigma1 e + shaCh e f g + k + w) % M32
  let t2 := (bigSigma0 a + shaMaj a b c) % M32
  ((t1 + t2) % M32, a, b, c, (d + t1) % M32, e, f, g)

def shaCompress (h : List Nat) (block : List Nat) : List Nat :=
  match h with
  | [h0, h1, h2, h3, h4, h5, h6, h7] =>
    let w := shaSchedule block.toArray
    let init := (h0, h1, h2, h3, h4, h5, h6, h7)
    let (a, b, c, d, e, f, g, hh) := (shaK.zip w.toList).foldl shaRound init
    [(h0 + a) % M32, (h1 + b) % M32, (h2 + c) % M32, (h3 + d) % M32,
     (h4 + e) % M32, (h5 + f) % M32, (h6 + g) % M32, (h7 + hh) % M32]
  | _ => h

/-- SHA-256 padding of a byte string. -/
def shaPad (msg : List Nat) : List Nat :=
  let len := msg.length
  let bitLen := len * 8
  let padLen := (119 - len % 64) % 64
  msg ++ [0x80] ++ List.replicate padLen 0 ++
    [(bitLen >>> 56) % 256, (bitLen >>> 48) % 256, (bitLen >>> 40) % 256, (bitLen >>> 32) % 256,
     (bitLen >>> 24) % 256, (bitLen >>> 16) % 256, (bitLen >>> 8) % 256, bitLen % 256]

/-- Big-endian 32-bit words of a (padded) byte string. -/
def bytesToWords : List Nat → List Nat
  | b0 :: b1 :: b2 :: b3 :: rest =>
    (b0 <<< 24 ||| b1 <<< 16 ||| b2 <<< 8 ||| b3) :: bytesToWords rest
  | _ => []

/-- Fold the compression function over successive 16-word blocks. -/
def shaBlocks (h : List Nat) (acc : List Nat) : List Nat → List Nat
  | [] => h
  | w :: rest =>
    let acc2 := acc ++ [w]
    if acc2.length == 16 then shaBlocks (shaCompress h acc2) [] rest
    else shaBlocks h acc2 rest

def sha256Words (msg : List Nat) : List Nat :=
  shaBlocks shaH0 [] (bytesToWords (shaPad msg))

def hexDigit (n : Nat) : Char :=
  if n < 10 then Char.ofNat (48 + n) else Char.ofNat (87 + n)

def word2hex (w : Nat) : List Char :=
  [hexDigit ((w >>> 28) % 16), hexDigit ((w >>> 24) % 16), hexDigit ((w >>> 20) % 16),
   hexDigit ((w >>> 16) % 16), hexDigit ((w >>> 12) % 16), hexDigit ((w >>> 8) % 16),
   hexDigit ((w >>> 4) % 16), hexDigit (w % 16)]

/-- `hashlib.sha256(raw).hexdigest()`. -/
def sha256hex (msg : List Nat) : String :=
  ⟨(sha256Words msg).flatMap word2hex⟩

/-- `raw.encode()` on the ASCII fragment used by the configuration. -/
def strBytes (s : String) : List Nat := s.data.map Char.toNat

/-- `_config_fingerprint(graph_config)` — SHA-256 of the key-sorted JSON
dump, truncated to 16 hex digits. -/
def config_fingerprint (graph_config : Json) : String :=
  pySlice (sha256hex (strBytes (dumps graph_config))) 16

/-! ## Graph Cache — `get_or_build_graph`

`_graph_cache : dict[str, CompiledGraph]`.  Each `build_graph` call returns
a fresh compiled-graph object; object identity is embedded as a serial
number paired with the built `RoutingGraph`. -/

/-- `graph_config.get(key, {})` on an object, `{}` (empty object) otherwise. -/
def jsonGet (j : Json) (key : String) : Json :=
  match j with
  | .obj fields =>
    match fields.lookup key with
    | some v => v
    | none => .obj []
  | _ => .obj []

/-- `....get(name, {}).get("enabled", default)` coerced to the boolean the
toggle sites consume. -/
def toggleOf (nodesCfg : Json) (name : String) (default : Bool) : Bool :=
  match jsonGet (jsonGet nodesCfg name) "enabled" with
  | .bool b => b
  | _ => default

/-- The toggle reads at the top of `build_graph`. -/
def build_graph_config (graph_config : Json) : RoutingGraph :=
  let nodesCfg := jsonGet (jsonGet graph_config "graph") "nodes"
  build_graph
    (toggleOf nodesCfg "planner" true)
    (toggleOf nodesCfg "approval" false)
    (toggleOf nodesCfg "replanner" true)
    (toggleOf nodesCfg "summarizer" true)

/-- A compiled graph object: its identity (allocation serial) and its
structure. -/
structure CompiledGraph where
  objId : Nat
  graph : RoutingGraph
deriving DecidableEq, Repr

structure GraphCache where
  entries : List (String × CompiledGraph)
  nextObj : Nat

def GraphCache.initial : GraphCache := { entries := [], nextObj := 0 }

/-- `get_or_build_graph(graph_config)`: compute the fingerprint; on a hit
return the cached compiled graph, on a miss call `build_graph`, store and
return the fresh object.  (The `cleanup_old_checkpoints()` prologue touches
only the checkpoint store and is modelled separately.) -/
def get_or_build_graph (graph_config : Json) (st : GraphCache) :
    CompiledGraph × GraphCache :=
  let fp := config_fingerprint graph_config
  match st.entries.lookup fp with
  | some g => (g, st)
  | none =>
    let g : CompiledGraph :=
      { objId := st.nextObj, graph := build_graph_config graph_config }
    (g, { entries := (fp, g) :: st.entries, nextObj := st.nextObj + 1 })

/-- The configuration shape `build_graph` reads:
`{"graph": {"nodes": ...}}` around a nodes object. -/
def mkConfig (nodes : List (String × Json)) : Json :=
  .obj [("graph", .obj [("nodes", .obj nodes)])]

/-- A toggle-only configuration instance, one `{"enabled": bool}` object per
node name. -/
def toggleConfig (p a r s : Bool) : Json :=
  mkConfig
    [("planner", .obj [("enabled", .bool p)]),
     ("approval", .obj [("enabled", .bool a)]),
     ("replanner", .obj [("enabled", .bool r)]),
     ("summarizer", .obj [("enabled", .bool s)])]

/-! ## Concrete scenarios and enumerations used by the theorems -/

/-- The `plan_revised` events of a stream. -/
def revisedEvents (evts : List Event) : List Event :=
  evts.filter fun e =>
    match e with
    | .planRevised _ _ _ _ => true
    | _ => false

/-- Spec scenario C: a 3-step plan (ids 1, 2, 3); after step 1 the replanner
decides `revise` with two new step titles; every later evaluation fails
(degrading to continue). -/
def scenarioCEnv : LoopEnv :=
  { planId := "p"
    planTitle := "t"
    planMaxSteps := 8
    revisionEnabled := true
    stepResponse := fun _ => "r"
    modelOutcome := fun j =>
      if j = 1 then
        .ok { action := "revise", response := "", revisedSteps := ["a", "b"],
              reason := "because" }
      else .error "timeout" }

def scenarioCSteps : List Step :=
  [{ id := 1, title := "s1", status := "pending" },
   { id := 2, title := "s2", status := "pending" },
   { id := 3, title := "s3", status := "pending" }]

/-- The 16 toggle combinations. -/
def allToggles : List (Bool × Bool × Bool × Bool) :=
  [(false, false, false, false), (false, false, false, true),
   (false, false, true, false), (false, false, true, true),
   (false, true, false, false), (false, true, false, true),
   (false, true, true, false), (false, true, true, true),
   (true, false, false, false), (true, false, false, true),
   (true, false, true, false), (true, false, true, true),
   (true, true, false, false), (true, true, false, true),
   (true, true, true, false), (true, true, true, true)]

/-- `toggleConfig` on a tuple. -/
def toggleConfigT (t : Bool × Bool × Bool × Bool) : Json :=
  toggleConfig t.1 t.2.1 t.2.2.1 t.2.2.2

/-! # Theorems -/

/-! ## Approval Gate -/

/-- C2 (counterexample): with `"p1"` already pending and unresolved, a second
`register_plan_approval("p1")` does not fail with any duplicate-request
error — it succeeds, allocating a second, distinct `asyncio.Event` (serial 1,
while the pending one is serial 0) that silently replaces the pending
entry. -/
theorem register_duplicate_succeeds :
    (register_plan_approval "p1" ApprovalState.initial).1 = 0 ∧
    (register_plan_approval "p1"
      (register_plan_approval "p1" ApprovalState.initial).2).1 = 1 ∧
    (register_plan_approval "p1"
      (register_plan_approval "p1" ApprovalState.initial).2).2.events "p1" =
      some 1 := by
  refine ⟨rfl, rfl, ?_⟩
  simp [register_plan_approval, ApprovalState.initial, dictSet]

/-- C2 (amended): `register_plan_approval` performs no duplicate check: for
every state — a pending entry present or not — it succeeds, storing a fresh
unset Event under `plan_id` in place of whatever was there, and leaves the
entries of all other plan ids untouched (so the registry still holds at most
one entry per plan id, by overwriting rather than by rejecting). -/
theorem register_always_overwrites :
    ∀ (st : ApprovalState) p,
      (register_plan_approval p st).1 = st.nextEvt ∧
      (register_plan_approval p st).2.events p = some st.nextEvt ∧
      (register_plan_approval p st).2.flags st.nextEvt = false ∧
      ∀ q, q ≠ p → (register_plan_approval p st).2.events q = st.events q := by
  intro st p
  refine ⟨rfl, by simp [register_plan_approval, dictSet], by
    simp [register_plan_approval], fun q hq => ?_⟩
  simp [register_plan_approval, dictSet, hq]

theorem register_always_overwrites_witness :
    (register_plan_approval "p1" ApprovalState.initial).1 = 0 ∧
    (register_plan_approval "p1" ApprovalState.initial).2.events "p1" = some 0 ∧
    (register_plan_approval "p1" ApprovalState.initial).2.flags 0 = false ∧
    (register_plan_approval "p1" ApprovalState.initial).2.events "p2" = none := by
  have h := register_always_overwrites ApprovalState.initial "p1"
  exact ⟨h.1, h.2.1, h.2.2.1, h.2.2.2 "p2" (by decide)⟩

/-- C9: the first `resolve_plan_approval(plan_id, b)` on a pending entry
returns `True`, stores `b`, and sets the popped Event (releasing the
waiter); a second resolve with any boolean returns `False` and leaves the
state — the stored result included — unchanged; resolve on a plan id with no
pending entry returns `False` and changes nothing. -/
theorem resolve_exactly_once :
    (∀ (st : ApprovalState) p e b b', st.events p = some e →
      (resolve_plan_approval p b st).1 = true ∧
      (resolve_plan_approval p b st).2.results p = some b ∧
      (resolve_plan_approval p b st).2.flags e = true ∧
      resolve_plan_approval p b' (resolve_plan_approval p b st).2 =
        (false, (resolve_plan_approval p b st).2)) ∧
    (∀ (st : ApprovalState) p b, st.events p = none →
      resolve_plan_approval p b st = (false, st)) := by
  constructor
  · intro st p e b b' h
    refine ⟨by simp [resolve_plan_approval, h], by
      simp [resolve_plan_approval, h, dictSet], by
      simp [resolve_plan_approval, h], ?_⟩
    simp [resolve_plan_approval, h, dictSet]
  · intro st p b h
    simp [resolve_plan_approval, h]

theorem resolve_exactly_once_witness :
    ((resolve_plan_approval "p1" true
        (register_plan_approval "p1" ApprovalState.initial).2).1 = true ∧
      (resolve_plan_approval "p1" true
        (register_plan_approval "p1" ApprovalState.initial).2).2.results "p1" =
        some true ∧
      (resolve_plan_approval "p1" true
        (register_plan_approval "p1" ApprovalState.initial).2).2.flags 0 = true ∧
      resolve_plan_approval "p1" false
        (resolve_plan_approval "p1" true
          (register_plan_approval "p1" ApprovalState.initial).2).2 =
        (false,
          (resolve_plan_approval "p1" true
            (register_plan_approval "p1" ApprovalState.initial).2).2)) ∧
    resolve_plan_approval "p9" true ApprovalState.initial =
      (false, ApprovalState.initial) :=
  ⟨resolve_exactly_once.1 _ "p1" 0 true false
      (by simp [register_plan_approval, ApprovalState.initial, dictSet]),
    resolve_exactly_once.2 ApprovalState.initial "p9" true rfl⟩

/-- C10: after a successful `resolve_plan_approval(plan_id, b)`, the first
`get_plan_approval_result(plan_id)` returns exactly `b` and removes the
stored entry, so any further call returns the fail-open default `True`. -/
theorem consume_result_roundtrip :
    ∀ (st : ApprovalState) p e b, st.events p = some e →
      (get_plan_approval_result p (resolve_plan_approval p b st).2).1 = b ∧
      (get_plan_approval_result p
        (resolve_plan_approval p b st).2).2.results p = none ∧
      (get_plan_approval_result p
        (get_plan_approval_result p (resolve_plan_approval p b st).2).2).1 =
        true := by
  intro st p e b h
  simp [resolve_plan_approval, h, get_plan_approval_result, dictSet]

theorem consume_result_roundtrip_witness :
    (get_plan_approval_result "p1"
      (resolve_plan_approval "p1" false
        (register_plan_approval "p1" ApprovalState.initial).2).2).1 = false ∧
    (get_plan_approval_result "p1"
      (resolve_plan_approval "p1" false
        (register_plan_approval "p1" ApprovalState.initial).2).2).2.results "p1" =
      none ∧
    (get_plan_approval_result "p1"
      (get_plan_approval_result "p1"
        (resolve_plan_approval "p1" false
          (register_plan_approval "p1" ApprovalState.initial).2).2).2).1 = true :=
  consume_result_roundtrip _ "p1" 0 false
    (by simp [register_plan_approval, ApprovalState.initial, dictSet])

/-! ## Replanner -/

/-- C7: `_evaluate_replan` returns `none` without invoking any model when
replanning is disabled by configuration or when no steps remain from
`current_index` on; and whenever the model invocation raises (timeout,
malformed structured output), the exception is caught and the evaluation
returns `none` instead of propagating. -/
theorem evaluate_replan_guards_and_failure :
    (∀ (steps : List Step) idx mc,
      evaluate_replan false steps idx mc = (none, false)) ∧
    (∀ en (steps : List Step) idx mc, steps.drop idx = [] →
      evaluate_replan en steps idx mc = (none, false)) ∧
    (∀ en (steps : List Step) idx msg,
      (evaluate_replan en steps idx (.error msg)).1 = none) := by
  refine ⟨fun steps idx mc => rfl, fun en steps idx mc h => ?_,
    fun en steps idx msg => ?_⟩
  · cases en
    all_goals simp [evaluate_replan, h]
  · cases en
    all_goals simp [evaluate_replan]
    split
    all_goals simp

theorem evaluate_replan_guards_and_failure_witness :
    evaluate_replan false scenarioCSteps 0 (.error "x") = (none, false) ∧
    evaluate_replan true scenarioCSteps 3 (.error "x") = (none, false) ∧
    (evaluate_replan true scenarioCSteps 0 (.error "x")).1 = none :=
  ⟨evaluate_replan_guards_and_failure.1 scenarioCSteps 0 _,
    evaluate_replan_guards_and_failure.2.1 true scenarioCSteps 3 _ (by decide),
    evaluate_replan_guards_and_failure.2.2 true scenarioCSteps 0 "x"⟩

/-! ## Graph Assembler -/

/-- C3 (counterexample): with `approval` enabled and `planner` disabled,
`build_graph` raises no `ConfigError` — its source has no validation and no
error path at all — and instead builds the very graph it builds with
`approval` disabled: the single-edge `agent → END` graph with no approval
node, silently ignoring the approval setting. -/
theorem build_graph_no_config_error :
    build_graph false true true true = build_graph false false true true ∧
    GNode.approval ∉ (build_graph false true true true).nodes ∧
    (build_graph false true true true).edges =
      [(GNode.ENTRY, GNode.agent), (GNode.agent, GNode.END)] := by
  decide

/-- C3 (amended): `build_graph` performs no configuration-consistency check:
for every setting of the other toggles, disabling `planner` yields the
single-edge `agent → END` graph regardless of the `approval` toggle, which
is silently ignored rather than rejected. -/
theorem build_graph_planner_off_ignores_approval :
    ∀ a r s : Bool,
      build_graph false a r s =
        { nodes := [GNode.agent],
          edges := [(GNode.ENTRY, GNode.agent), (GNode.agent, GNode.END)] } := by
  decide

/-- C5 (counterexample): in the combination `planner = on, approval = off,
replanner = on, summarizer = off` the assembled graph, with the two designed
backedges `summarizer → agent` and `approval → agent` removed (neither node
even exists here), still contains a directed cycle — the per-step executor
loop `executor_pre → executor → replanner → executor_pre`. -/
theorem executor_loop_outside_designed_backedges :
    hasCycle ((build_graph true false true false).edges.filter
      (fun e => e ∉ designedBackedges)) = true ∧
    reaches ((build_graph true false true false).edges.filter
      (fun e => e ∉ designedBackedges))
      GNode.executor GNode.executor_pre = true ∧
    (GNode.executor_pre, GNode.executor) ∈ (build_graph true false true false).edges ∧
    (GNode.replanner, GNode.executor_pre) ∈ (build_graph true false true false).edges := by
  decide

/-- C5 (amended): for every one of the 16 toggle combinations the assembled
graph has every declared node reachable from `ENTRY` and `END` reachable
from every declared node (no unreachable node); removing the loop-closing
backedges — the designed `summarizer → agent` and `approval → agent` plus
the executor-loop backedges `replanner → executor_pre` and
`executor → executor_pre` — leaves an acyclic graph; and with `planner`
disabled the graph collapses to the single edge `agent → END`. -/
theorem build_graph_reachable_and_loops :
    ∀ p a r s : Bool,
      (∀ n ∈ (build_graph p a r s).nodes,
        reaches (build_graph p a r s).edges GNode.ENTRY n = true) ∧
      (∀ n ∈ (build_graph p a r s).nodes,
        reaches (build_graph p a r s).edges n GNode.END = true) ∧
      hasCycle ((build_graph p a r s).edges.filter
        (fun e => e ∉ actualBackedges)) = false ∧
      (p = false →
        build_graph p a r s =
          { nodes := [GNode.agent],
            edges := [(GNode.ENTRY, GNode.agent), (GNode.agent, GNode.END)] }) := by
  decide

theorem build_graph_reachable_and_loops_witness :
    reaches (build_graph true true true true).edges GNode.ENTRY
      GNode.summarizer = true ∧
    reaches (build_graph true true true true).edges GNode.approval
      GNode.END = true ∧
    hasCycle ((build_graph true true true true).edges.filter
      (fun e => e ∉ actualBackedges)) = false ∧
    build_graph false true true true =
      { nodes := [GNode.agent],
        edges := [(GNode.ENTRY, GNode.agent), (GNode.agent, GNode.END)] } := by
  have h := build_graph_reachable_and_loops true true true true
  have h0 := build_graph_reachable_and_loops false true true true
  exact ⟨h.1 GNode.summarizer (by decide), h.2.1 GNode.approval (by decide),
    h.2.2.1, h0.2.2.2 rfl⟩

/-! ## Execution Runner — step-loop bound -/

/-- Helper: from any start index, the loop never pushes the iteration count
past `max plan_max_steps start`. -/
theorem planLoop_iterations_le (env : LoopEnv) :
    ∀ (fuel : Nat) (steps : List Step) (idx : Nat) past,
      env.planMaxSteps - idx ≤ fuel →
      (planLoop env steps idx past).iterations ≤ max env.planMaxSteps idx := by
  intro fuel
  induction fuel with
  | zero =>
    intro steps idx past hf
    rw [planLoop]
    have h : ¬(idx < steps.length ∧ idx < env.planMaxSteps) := by omega
    simp only [h, dite_false, dif_neg h]
    exact Nat.le_max_right _ _
  | succ n ih =>
    intro steps idx past hf
    rw [planLoop]
    by_cases h : idx < steps.length ∧ idx < env.planMaxSteps
    · simp only [dif_pos h]
      cases hit : loopIteration env steps idx past with
      | mk evts cont =>
        cases cont with
        | none => simpa using by omega
        | some c =>
          cases c with
          | mk steps2 past2 =>
            simp only []
            have h2 := ih steps2 (idx + 1) past2 (by omega)
            have : max env.planMaxSteps (idx + 1) = env.planMaxSteps := by
              omega
            omega
    · simp only [dif_neg h]
      exact Nat.le_max_right _ _

/-- C8: for every plan and every behaviour of the sub-agents and the
replanner — pathological revision chains that keep replacing and extending
the remaining steps included — the Phase-2 step loop executes at most
`settings.plan_max_steps` iterations, independent of the (evolving) plan
length; termination itself is witnessed by `planLoop` being a total
function, whose well-founded measure `plan_max_steps - step_index` is
exactly the source's argument (the guard keeps `step_index` below the
ceiling and every iteration increments it). -/
theorem stream_plan_execution_bounded :
    ∀ (env : LoopEnv) (steps : List Step),
      (stream_plan_execution env steps).iterations ≤ env.planMaxSteps := by
  intro env steps
  have h := planLoop_iterations_le env (env.planMaxSteps + 1) steps 0 [] (by omega)
  simpa [stream_plan_execution] using h

/-! ## Execution Runner — plan revision -/

/-- `planLoop` agrees with its structural twin given enough fuel. -/
theorem planLoop_eq_planLoopFuel (env : LoopEnv) :
    ∀ (fuel : Nat) (steps : List Step) (idx : Nat) past,
      env.planMaxSteps - idx ≤ fuel →
      planLoop env steps idx past = planLoopFuel fuel env steps idx past := by
  intro fuel
  induction fuel with
  | zero =>
    intro steps idx past hf
    rw [planLoop]
    have h : ¬(idx < steps.length ∧ idx < env.planMaxSteps) := by omega
    simp [planLoopFuel, dif_neg h]
  | succ n ih =>
    intro steps idx past hf
    rw [planLoop]
    by_cases h : idx < steps.length ∧ idx < env.planMaxSteps
    · simp only [planLoopFuel, dif_pos h, if_pos h]
      cases hit : loopIteration env steps idx past with
      | mk evts cont =>
        cases cont with
        | none => rfl
        | some c =>
          cases c with
          | mk steps2 past2 =>
            simp only []
            rw [ih steps2 (idx + 1) past2 (by omega)]
    · simp [planLoopFuel, dif_neg h, if_neg h]

/-- C1 (counterexample): spec scenario C — original step ids `1, 2, 3`, a
`revise` decision with two new titles after step 1.  The run emits exactly
one `plan_revised` event and it carries new step ids `2, 3` (the source
assigns `step_index + i + 1`, reusing the replaced steps' ids), not the ids
`4, 5` that "continuing from the highest existing id" would demand; the
final plan's ids are `1, 2, 3`, not `1, 4, 5`.  (Step 1's entry is indeed
unchanged — only the id-continuation part of the claim fails.) -/
theorem revise_reuses_replaced_ids :
    revisedEvents (stream_plan_execution scenarioCEnv scenarioCSteps).events =
      [Event.planRevised "p"
        [{ id := 2, title := "a", status := "pending" },
         { id := 3, title := "b", status := "pending" }] 1 "because"] ∧
    (stream_plan_execution scenarioCEnv scenarioCSteps).steps.map Step.id =
      [1, 2, 3] ∧
    ([2, 3] : List Nat) ≠ [4, 5] ∧
    (stream_plan_execution scenarioCEnv scenarioCSteps).steps.take 1 =
      scenarioCSteps.take 1 := by
  have h := planLoop_eq_planLoopFuel scenarioCEnv 8 scenarioCSteps 0 [] (by decide)
  simp only [stream_plan_execution, h]
  decide

/-- C1 (amended): when the replanner returns a `revise` decision with a
non-empty list of new titles after the step at index `k = step_index + 1`
(post-increment), the runner emits one `plan_revised` event carrying exactly
the new step list and the decision's reason and replaces the suffix of the
step sequence from `k` on — but the new ids continue from the current step
index (`id = k + i + 1`, which can reuse the ids of the replaced steps), not
from the highest existing id; the entries (ids and stored statuses) of all
steps below `k` are unchanged. -/
theorem revise_splices_suffix_with_index_based_ids :
    ∀ (env : LoopEnv) (steps : List Step) (idx : Nat) past (d : ReplanDecision),
      env.revisionEnabled = true →
      idx + 1 < steps.length →
      env.modelOutcome (idx + 1) = .ok d →
      d.action = "revise" →
      d.revisedSteps ≠ [] →
      loopIteration env steps idx past =
        ([Event.planUpdated env.planId
            (steps.getD idx { id := 0, title := "", status := "" }).id "running",
          Event.planUpdated env.planId
            (steps.getD idx { id := 0, title := "", status := "" }).id "completed",
          Event.planRevised env.planId (reviseNewSteps (idx + 1) d.revisedSteps)
            (idx + 1) d.reason],
         some (steps.take (idx + 1) ++ reviseNewSteps (idx + 1) d.revisedSteps,
           past ++ [((steps.getD idx { id := 0, title := "", status := "" }).title,
             pySlice (env.stepResponse idx) 1000)])) ∧
      (reviseNewSteps (idx + 1) d.revisedSteps).map Step.id =
        (List.range d.revisedSteps.length).map (fun i => idx + 1 + i + 1) ∧
      ∀ i, i ≤ idx →
        (steps.take (idx + 1) ++ reviseNewSteps (idx + 1) d.revisedSteps)[i]? =
          steps[i]? := by
  intro env steps idx past d hen hlen hmo hact hne
  refine ⟨?_, ?_, ?_⟩
  · have hrem : steps.length - (idx + 1) > 0 := by omega
    have hdrop : ¬(steps.drop (idx + 1) = []) := by
      simp [List.drop_eq_nil_iff]
      omega
    have hfin : ¬(d.action = "finish") := by rw [hact]; decide
    simp only [loopIteration, hrem, if_pos hrem, hmo, evaluate_replan, hen,
      Bool.not_true, if_neg hdrop, hdrop, if_false, ite_false, ite_true,
      gt_iff_lt, hfin]
    simp [hact, hne]
  · simp only [reviseNewSteps, List.map_map]
    have hcomp :
        (Step.id ∘ fun si : Nat × String =>
          ({ id := idx + 1 + si.1 + 1, title := pyStrip si.2,
             status := "pending" } : Step)) =
        ((fun i => idx + 1 + i + 1) ∘ Prod.fst) := rfl
    rw [hcomp, ← List.map_map, List.enum_map_fst]
  · intro i hi
    have h1 : i < (steps.take (idx + 1)).length := by
      simp [List.length_take]
      omega
    rw [List.getElem?_append_left h1, List.getElem?_take_of_lt (by omega)]

set_option maxRecDepth 10000 in
theorem revise_splices_witness :
    loopIteration scenarioCEnv scenarioCSteps 0 [] =
      ([Event.planUpdated "p" 1 "running",
        Event.planUpdated "p" 1 "completed",
        Event.planRevised "p"
          [{ id := 2, title := "a", status := "pending" },
           { id := 3, title := "b", status := "pending" }] 1 "because"],
       some ([{ id := 1, title := "s1", status := "pending" },
              { id := 2, title := "a", status := "pending" },
              { id := 3, title := "b", status := "pending" }],
             [("s1", "r")])) ∧
    (reviseNewSteps 1 ["a", "b"]).map Step.id = [2, 3] ∧
    (scenarioCSteps.take 1 ++ reviseNewSteps 1 ["a", "b"])[0]? =
      scenarioCSteps[0]? := by
  have h := revise_splices_suffix_with_index_based_ids scenarioCEnv scenarioCSteps
    0 [] { action := "revise", response := "", revisedSteps := ["a", "b"],
           reason := "because" }
    rfl (by decide) rfl rfl (by decide)
  refine ⟨?_, ?_, ?_⟩
  · rw [h.1]
    decide
  · rw [h.2.1]
    decide
  · exact h.2.2 0 (by omega)

/-! ## Checkpoint Store pruning -/

/-- C4 (counterexample): `cleanup_old_checkpoints` contains no clamp of the
retention ceiling: with the ceiling misconfigured to `0`, a conversation's
single (hence most recent) checkpoint is deleted — `sorted_keys[0:]` is the
whole group — while the shipped ceiling `20` keeps it. -/
theorem cleanup_zero_removes_most_recent :
    cleanup_old_checkpoints 0 [{ thread := "t", ns := "", cid := "1" }] = [] ∧
    cleanup_old_checkpoints 20 [{ thread := "t", ns := "", cid := "1" }] =
      [{ thread := "t", ns := "", cid := "1" }] := by
  decide

/-- C4 (amended): whenever the retention ceiling is at least `1` — as the
shipped constant `20` is — pruning keeps, for every conversation present in
the store, a checkpoint of that conversation whose `checkpoint_id` is
maximal among the conversation's entries; no clamp exists, so a ceiling of
`0` deletes all of a conversation's checkpoints, the most recent
included. -/
theorem cleanup_keeps_most_recent :
    ∀ (N : Nat) (storage : List CkptKey) (k : CkptKey),
      1 ≤ N → storage.Nodup → k ∈ storage →
      ∃ m, m ∈ cleanup_old_checkpoints N storage ∧ m.thread = k.thread ∧
        ∀ k2 ∈ storage, k2.thread = k.thread → k2.cid ≤ m.cid := by
  intro N storage k hN hnd hk
  have hkmem : k ∈ storage.filter (fun x => x.thread = k.thread) :=
    List.mem_filter.mpr ⟨hk, by simp⟩
  have hperm :
      List.Perm
        (List.insertionSort cidDesc (storage.filter (fun x => x.thread = k.thread)))
        (storage.filter (fun x => x.thread = k.thread)) :=
    List.perm_insertionSort cidDesc _
  have hsorted :
      List.Sorted cidDesc
        (List.insertionSort cidDesc (storage.filter (fun x => x.thread = k.thread))) :=
    List.sorted_insertionSort cidDesc _
  cases hs :
      List.insertionSort cidDesc (storage.filter (fun x => x.thread = k.thread)) with
  | nil =>
    exfalso
    rw [hs] at hperm
    rw [hperm.symm.eq_nil] at hkmem
    simp at hkmem
  | cons m rest =>
    rw [hs] at hperm hsorted
    have hmkeys : m ∈ storage.filter (fun x => x.thread = k.thread) :=
      hperm.mem_iff.mp (List.mem_cons_self m rest)
    have hmthread : m.thread = k.thread := by
      have := List.of_mem_filter hmkeys
      simpa using this
    have hmax : ∀ k2 ∈ storage, k2.thread = k.thread → k2.cid ≤ m.cid := by
      intro k2 hk2 ht2
      have hk2keys : k2 ∈ storage.filter (fun x => x.thread = k.thread) :=
        List.mem_filter.mpr ⟨hk2, by simp [ht2]⟩
      have hk2sorted : k2 ∈ m :: rest := hperm.mem_iff.mpr hk2keys
      rcases List.mem_cons.mp hk2sorted with he | hr
      · rw [he]
      · exact List.rel_of_sorted_cons hsorted k2 hr
    refine ⟨m, ?_, hmthread, hmax⟩
    have hmstorage : m ∈ storage := List.mem_of_mem_filter hmkeys
    have hnodupSorted : (m :: rest).Nodup := by
      rw [← hs]
      exact (List.perm_insertionSort cidDesc _).nodup_iff.mpr (hnd.filter _)
    have hnotin :
        m ∉ ((storage.map CkptKey.thread).dedup).flatMap
          (removalForThread N storage) := by
      intro hmem
      rcases List.mem_flatMap.mp hmem with ⟨t2, _ht2, hmrem⟩
      unfold removalForThread at hmrem
      by_cases hle :
          (storage.filter (fun x => x.thread = t2)).length ≤ N
      · simp [hle] at hmrem
      · simp only [hle, if_neg hle, if_false] at hmrem
        have hmkeys2 : m ∈ storage.filter (fun x => x.thread = t2) :=
          (List.perm_insertionSort cidDesc _).mem_iff.mp
            (List.drop_subset _ _ hmrem)
        have hmt2 : m.thread = t2 := by
          have := List.of_mem_filter hmkeys2
          simpa using this
        rw [← hmt2, hmthread] at hmrem
        rw [hs] at hmrem
        obtain ⟨N2, rfl⟩ : ∃ N2, N = N2 + 1 := ⟨N - 1, by omega⟩
        rw [List.drop_succ_cons] at hmrem
        exact (List.nodup_cons.mp hnodupSorted).1 (List.drop_subset _ _ hmrem)
    unfold cleanup_old_checkpoints
    exact List.mem_filter.mpr ⟨hmstorage, by simpa using hnotin⟩

theorem cleanup_keeps_most_recent_witness :
    ∃ m, m ∈ cleanup_old_checkpoints 1
        [{ thread := "t", ns := "", cid := "1" },
         { thread := "t", ns := "", cid := "2" }] ∧
      m.thread = "t" ∧
      ∀ k2 ∈ [({ thread := "t", ns := "", cid := "1" } : CkptKey),
              { thread := "t", ns := "", cid := "2" }],
        k2.thread = "t" → k2.cid ≤ m.cid :=
  cleanup_keeps_most_recent 1
    [{ thread := "t", ns := "", cid := "1" },
     { thread := "t", ns := "", cid := "2" }]
    { thread := "t", ns := "", cid := "1" }
    (by decide) (by decide) (by decide)

/-! ## Graph Cache and configuration fingerprint -/

theorem dumpFields_eq_map :
    ∀ l : List (String × Json), dumpFields l = l.map fun kv => (kv.1, dumps kv.2) := by
  intro l
  induction l with
  | nil => rfl
  | cons kv rest ih => simp [dumpFields, ih]

theorem sortFields_eq_of_perm :
    ∀ l1 l2 : List (String × String), l1.Perm l2 → (l1.map Prod.fst).Nodup →
      sortFields l1 = sortFields l2 := by
  intro l1 l2 hp hnd
  have hs1 := List.sorted_insertionSort keyLe l1
  have hs2 := List.sorted_insertionSort keyLe l2
  have hp12 : (sortFields l1).Perm (sortFields l2) :=
    (List.perm_insertionSort keyLe l1).trans
      (hp.trans (List.perm_insertionSort keyLe l2).symm)
  have hnd1 : ((sortFields l1).map Prod.fst).Nodup :=
    (((List.perm_insertionSort keyLe l1).map Prod.fst).nodup_iff).mpr hnd
  have hnd2 : ((sortFields l2).map Prod.fst).Nodup :=
    (((List.perm_insertionSort keyLe l2).map Prod.fst).nodup_iff).mpr
      ((hp.map Prod.fst).nodup_iff.mp hnd)
  have hlt1 : List.Sorted keyLt (sortFields l1) :=
    hs1.and (List.pairwise_map.mp hnd1)
  have hlt2 : List.Sorted keyLt (sortFields l2) :=
    hs2.and (List.pairwise_map.mp hnd2)
  exact List.eq_of_perm_of_sorted hp12 hlt1 hlt2

theorem dumps_mkConfig_perm :
    ∀ ns1 ns2 : List (String × Json), ns1.Perm ns2 → (ns1.map Prod.fst).Nodup →
      dumps (mkConfig ns1) = dumps (mkConfig ns2) := by
  intro ns1 ns2 hp hnd
  have hkeys : ∀ ns : List (String × Json),
      (dumpFields ns).map Prod.fst = ns.map Prod.fst := by
    intro ns
    rw [dumpFields_eq_map, List.map_map]
    rfl
  have hinner : sortFields (dumpFields ns1) = sortFields (dumpFields ns2) := by
    apply sortFields_eq_of_perm
    · rw [dumpFields_eq_map, dumpFields_eq_map]
      exact hp.map _
    · rw [hkeys]
      exact hnd
  simp only [sortFields] at hinner
  simp [mkConfig, dumps, dumpFields, sortFields, hinner]

set_option maxRecDepth 4000 in
theorem fpVal_0000 :
    config_fingerprint (toggleConfigT (false, false, false, false)) =
      "c352409f40ca0da1" := by
  decide

set_option maxRecDepth 4000 in
theorem fpVal_0001 :
    config_fingerprint (toggleConfigT (false, false, false, true)) =
      "dc16b611be0f6c51" := by
  decide

set_option maxRecDepth 4000 in
theorem fpVal_0010 :
    config_fingerprint (toggleConfigT (false, false, true, false)) =
      "b8a33f77ac821c56" := by
  decide

set_option maxRecDepth 4000 in
theorem fpVal_0011 :
    config_fingerprint (toggleConfigT (false, false, true, true)) =
      "bed597a53a5aa8f7" := by
  decide

set_option maxRecDepth 4000 in
theorem fpVal_0100 :
    config_fingerprint (toggleConfigT (false, true, false, false)) =
      "41818b7e64bb630b" := by
  decide

set_option maxRecDepth 4000 in
theorem fpVal_0101 :
    config_fingerprint (toggleConfigT (false, true, false, true)) =
      "2f855020c10472e1" := by
  decide

set_option maxRecDepth 4000 in
theorem fpVal_0110 :
    config_fingerprint (toggleConfigT (false, true, true, false)) =
      "d1a14ef2df73a1cf" := by
  decide

set_option maxRecDepth 4000 in
theorem fpVal_0111 :
    config_fingerprint (toggleConfigT (false, true, true, true)) =
      "e46fe5e67cfea52e" := by
  decide

set_option maxRecDepth 4000 in
theorem fpVal_1000 :
    config_fingerprint (toggleConfigT (true, false, false, false)) =
      "a8a2002a6946eae4" := by
  decide

set_option maxRecDepth 4000 in
theorem fpVal_1001 :
    config_fingerprint (toggleConfigT (true, false, false, true)) =
      "77d1167d9426a281" := by
  decide

set_option maxRecDepth 4000 in
theorem fpVal_1010 :
    config_fingerprint (toggleConfigT (true, false, true, false)) =
      "c35e0284a676a8b6" := by
  decide

set_option maxRecDepth 4000 in
theorem fpVal_1011 :
    config_fingerprint (toggleConfigT (true, false, true, true)) =
      "ac799f1e82940030" := by
  decide

set_option maxRecDepth 4000 in
theorem fpVal_1100 :
    config_fingerprint (toggleConfigT (true, true, false, false)) =
      "a746be013b423970" := by
  decide

set_option maxRecDepth 4000 in
theorem fpVal_1101 :
    config_fingerprint (toggleConfigT (true, true, false, true)) =
      "0d12b913c2f6cc88" := by
  decide

set_option maxRecDepth 4000 in
theorem fpVal_1110 :
    config_fingerprint (toggleConfigT (true, true, true, false)) =
      "849e6a0d3ee49549" := by
  decide

set_option maxRecDepth 4000 in
theorem fpVal_1111 :
    config_fingerprint (toggleConfigT (true, true, true, true)) =
      "61bbaae797eb886d" := by
  decide

theorem toggle_fps_nodup :
    (allToggles.map fun t => config_fingerprint (toggleConfigT t)).Nodup := by
  have hmap : (allToggles.map fun t => config_fingerprint (toggleConfigT t)) =
      ["c352409f40ca0da1", "dc16b611be0f6c51", "b8a33f77ac821c56", "bed597a53a5aa8f7", "41818b7e64bb630b", "2f855020c10472e1", "d1a14ef2df73a1cf", "e46fe5e67cfea52e", "a8a2002a6946eae4", "77d1167d9426a281", "c35e0284a676a8b6", "ac799f1e82940030", "a746be013b423970", "0d12b913c2f6cc88", "849e6a0d3ee49549", "61bbaae797eb886d"] := by
    simp only [allToggles, List.map_cons, List.map_nil,
      fpVal_0000, fpVal_0001, fpVal_0010, fpVal_0011, fpVal_0100, fpVal_0101, fpVal_0110, fpVal_0111, fpVal_1000, fpVal_1001, fpVal_1010, fpVal_1011, fpVal_1100, fpVal_1101, fpVal_1110, fpVal_1111]
  rw [hmap]
  decide

/-- C6: two calls to `get_or_build_graph` with structurally identical
configurations (same keys and values, the nodes object given in any key
order) return the same compiled graph object, via the identical key-sorted
fingerprint; two calls whose configurations differ in at least one toggle
value return distinct compiled graph objects, via distinct fingerprints. -/
theorem graph_cache_fingerprint_identity :
    (∀ ns1 ns2 : List (String × Json), ns1.Perm ns2 →
      (ns1.map Prod.fst).Nodup →
      (get_or_build_graph (mkConfig ns2)
        (get_or_build_graph (mkConfig ns1) GraphCache.initial).2).1 =
      (get_or_build_graph (mkConfig ns1) GraphCache.initial).1) ∧
    (∀ t1 t2 : Bool × Bool × Bool × Bool, t1 ≠ t2 →
      (get_or_build_graph (toggleConfigT t2)
        (get_or_build_graph (toggleConfigT t1) GraphCache.initial).2).1 ≠
      (get_or_build_graph (toggleConfigT t1) GraphCache.initial).1) := by
  constructor
  · intro ns1 ns2 hp hnd
    have hfp : config_fingerprint (mkConfig ns2) =
        config_fingerprint (mkConfig ns1) := by
      unfold config_fingerprint
      rw [dumps_mkConfig_perm ns1 ns2 hp hnd]
    simp [get_or_build_graph, GraphCache.initial, hfp, List.lookup]
  · intro t1 t2 hne
    have hmem : ∀ t : Bool × Bool × Bool × Bool, t ∈ allToggles := by decide
    have hfp : config_fingerprint (toggleConfigT t2) ≠
        config_fingerprint (toggleConfigT t1) := by
      intro heq
      exact hne (List.inj_on_of_nodup_map toggle_fps_nodup (hmem t2) (hmem t1)
        heq).symm
    have hbeq : (config_fingerprint (toggleConfigT t2) ==
        config_fingerprint (toggleConfigT t1)) = false :=
      beq_eq_false_iff_ne.mpr hfp
    simp [get_or_build_graph, GraphCache.initial, List.lookup, hbeq]

theorem graph_cache_fingerprint_identity_witness :
    (get_or_build_graph
      (mkConfig [("approval", Json.obj [("enabled", Json.bool false)]),
                 ("planner", Json.obj [("enabled", Json.bool true)])])
      (get_or_build_graph
        (mkConfig [("planner", Json.obj [("enabled", Json.bool true)]),
                   ("approval", Json.obj [("enabled", Json.bool false)])])
        GraphCache.initial).2).1 =
    (get_or_build_graph
      (mkConfig [("planner", Json.obj [("enabled", Json.bool true)]),
                 ("approval", Json.obj [("enabled", Json.bool false)])])
      GraphCache.initial).1 ∧
    (get_or_build_graph (toggleConfigT (true, false, true, true))
      (get_or_build_graph (toggleConfigT (true, true, true, true))
        GraphCache.initial).2).1 ≠
    (get_or_build_graph (toggleConfigT (true, true, true, true))
      GraphCache.initial).1 :=
  ⟨graph_cache_fingerprint_identity.1 _ _
      (List.Perm.swap _ _ _) (by decide),
    graph_cache_fingerprint_identity.2 _ _ (by decide)⟩

end VibeWorker
